import Mathlib

/-!
Verification of the economic-model core of `cloud-native-econ-model`.

The source consists of two Python files:
* `src/economic_model.py` — `CobbDouglasModel` (production function, marginal
  products, budget-constrained allocation) and `DemandModel` (constant
  elasticity demand, revenue, markup pricing);
* `src/main.py` — the HTTP layer; we embed the `/production` handler
  `calculate_production`.

Python floats are modelled by real numbers, `**` on positive floats by
`Real.rpow`, and `round(x, n)` by rounding `x * 10^n` to the nearest integer.
Python float division raises `ZeroDivisionError` when the divisor is zero, so
operations whose body divides are embedded with an `Option` result, `none`
standing for the raised exception.
-/

noncomputable section

open Real

/-- Models Python's `round(x, n)` on real numbers: round `x * 10^n` to the
nearest integer and scale back.  Python rounds ties to even while Mathlib's
`round` rounds ties up; no input considered in this development falls on a
tie, so the two conventions agree on every value evaluated here. -/
def roundTo (n : ℕ) (x : ℝ) : ℝ :=
  (round (x * 10 ^ n) : ℤ) / 10 ^ n

/-- `CobbDouglasModel.__init__(tfp, alpha, beta)`: `A` is total factor
productivity, `alpha` and `beta` the output elasticities
(`src/economic_model.py`, lines 17-20). -/
structure CobbDouglasModel where
  A : ℝ
  alpha : ℝ
  beta : ℝ

/-- `CobbDouglasModel.production` (`src/economic_model.py`, lines 22-24):
`A * capital ** alpha * labor ** beta`. -/
def CobbDouglasModel.production (m : CobbDouglasModel) (capital labor : ℝ) : ℝ :=
  m.A * capital ^ m.alpha * labor ^ m.beta

/-- `CobbDouglasModel.marginal_product_capital` (`src/economic_model.py`,
lines 26-28): `alpha * A * capital ** (alpha - 1) * labor ** beta`. -/
def CobbDouglasModel.marginal_product_capital (m : CobbDouglasModel)
    (capital labor : ℝ) : ℝ :=
  m.alpha * m.A * capital ^ (m.alpha - 1) * labor ^ m.beta

/-- `CobbDouglasModel.marginal_product_labor` (`src/economic_model.py`,
lines 30-32): `beta * A * capital ** alpha * labor ** (beta - 1)`. -/
def CobbDouglasModel.marginal_product_labor (m : CobbDouglasModel)
    (capital labor : ℝ) : ℝ :=
  m.beta * m.A * capital ^ m.alpha * labor ^ (m.beta - 1)

/-- Modelled from the spec: the body of `CobbDouglasModel.optimal_allocation`
(`src/economic_model.py`, lines 34-60) delegates to `scipy.optimize.minimize`
(SLSQP), an external library that is not part of the sources.  Per §4.1 of the
spec the solver converges, within solver tolerance, to the maximizer of
production subject to the exact budget-exhaustion equality, and the
closed-form share solution `K = (alpha/(alpha+beta))*budget/capital_price`,
`L = (beta/(alpha+beta))*budget/labor_price` is an admissible implementation
of the same interface.  We therefore model the converged (pre-rounding) point
of the solver by the closed-form shares, and prove below
(`optimal_allocation_budget_and_shares`) that this point satisfies the budget
constraint exactly and maximizes production over the feasible set, which is
what singles it out as the solver's limit. -/
def CobbDouglasModel.converged_allocation (m : CobbDouglasModel)
    (budget capital_price labor_price : ℝ) : ℝ × ℝ :=
  (m.alpha / (m.alpha + m.beta) * budget / capital_price,
   m.beta / (m.alpha + m.beta) * budget / labor_price)

/-- Result dictionary of `CobbDouglasModel.optimal_allocation`
(`src/economic_model.py`, lines 54-60). -/
structure AllocationResult where
  capital : ℝ
  labor : ℝ
  output : ℝ
  mpk : ℝ
  mpl : ℝ

/-- `CobbDouglasModel.optimal_allocation` (`src/economic_model.py`,
lines 34-60): the converged point (see `converged_allocation`), with the
result fields rounded as in the source (quantities and output to 2 decimals,
marginal products to 4). -/
def CobbDouglasModel.optimal_allocation (m : CobbDouglasModel)
    (budget capital_price labor_price : ℝ) : AllocationResult :=
  let p := m.converged_allocation budget capital_price labor_price
  { capital := roundTo 2 p.1
    labor := roundTo 2 p.2
    output := roundTo 2 (m.production p.1 p.2)
    mpk := roundTo 4 (m.marginal_product_capital p.1 p.2)
    mpl := roundTo 4 (m.marginal_product_labor p.1 p.2) }

namespace DemandModel

/-- `DemandModel.demand_quantity` (`src/economic_model.py`, lines 66-72):
`base_quantity * (price / base_price) ** elasticity`. -/
def demand_quantity (price elasticity : ℝ) (base_price : ℝ := 100)
    (base_quantity : ℝ := 1000) : ℝ :=
  base_quantity * (price / base_price) ^ elasticity

/-- `DemandModel.revenue` (`src/economic_model.py`, lines 74-78):
`price * demand_quantity(...)`. -/
def revenue (price elasticity : ℝ) (base_price : ℝ := 100)
    (base_quantity : ℝ := 1000) : ℝ :=
  price * demand_quantity price elasticity base_price base_quantity

/-- The error message of `DemandModel.optimal_price`
(`src/economic_model.py`, line 87). -/
def elasticity_error_msg : String :=
  "Elasticity must be negative for downward-sloping demand"

/-- Result of `DemandModel.optimal_price`: either the dictionary with the
single key `error` (line 87) or the dictionary with keys `optimal_price` and
`markup_percentage` (lines 91-94). -/
inductive OptimalPriceResult where
  | errorResult (msg : String)
  | priceResult (optimal_price markup_percentage : ℝ)
  deriving DecidableEq

/-- `DemandModel.optimal_price` (`src/economic_model.py`, lines 80-94).
Python float division raises `ZeroDivisionError` on a zero divisor, so the
computation of `marginal_cost / (1 + 1/elasticity)` (line 89) raises when
`1 + 1/elasticity = 0` (i.e. `elasticity = -1`), and the markup computation
`((optimal_price - marginal_cost) / marginal_cost) * 100` (line 93) raises
when `marginal_cost = 0`; both raised exceptions are modelled by `none`.
(The guard at line 86 catches `elasticity = 0` before `1/elasticity` is
evaluated.) -/
def optimal_price (elasticity marginal_cost : ℝ) : Option OptimalPriceResult :=
  if 0 ≤ elasticity then
    some (.errorResult elasticity_error_msg)
  else if 1 + 1 / elasticity = 0 then
    none
  else if marginal_cost = 0 then
    none
  else
    some (.priceResult (roundTo 2 (marginal_cost / (1 + 1 / elasticity)))
      (roundTo 2 ((marginal_cost / (1 + 1 / elasticity) - marginal_cost)
        / marginal_cost * 100)))

end DemandModel

/-- Response dictionary of the `/production` endpoint (`src/main.py`,
lines 61-66). -/
structure ProductionResponse where
  output : ℝ
  marginal_product_capital : ℝ
  marginal_product_labor : ℝ
  returns_to_scale : ℝ

/-- `calculate_production` (`src/main.py`, lines 53-66): builds a
`CobbDouglasModel` from the request and returns the response dictionary with
output rounded to 2 decimals, the marginal products to 4, and
`returns_to_scale = alpha + beta`.  The request schema (lines 14-19) defaults
`tfp = 1.0`, `alpha = 0.3`, `beta = 0.7` and requires `capital, labor > 0`. -/
def calculate_production (capital labor : ℝ) (tfp : ℝ := 1)
    (alpha : ℝ := 0.3) (beta : ℝ := 0.7) : ProductionResponse :=
  let model : CobbDouglasModel := ⟨tfp, alpha, beta⟩
  { output := roundTo 2 (model.production capital labor)
    marginal_product_capital :=
      roundTo 4 (model.marginal_product_capital capital labor)
    marginal_product_labor :=
      roundTo 4 (model.marginal_product_labor capital labor)
    returns_to_scale := alpha + beta }

end

/-- `roundTo` is the identity on integers scaled into range: rounding an
exact integer value changes nothing. -/
theorem roundTo_intCast (n : ℕ) (m : ℤ) : roundTo n (m : ℝ) = m := by
  unfold roundTo
  have h : ((m : ℝ) * 10 ^ n) = ((m * 10 ^ n : ℤ) : ℝ) := by push_cast; ring
  rw [h, round_intCast]
  push_cast
  field_simp

/-- C1: for positive `capital` and `labor`, `production` returns exactly
`A * capital ^ alpha * labor ^ beta`. -/
theorem production_formula (A alpha beta K L : ℝ) (hK : 0 < K) (hL : 0 < L)
    (hA : 0 < A) :
    (CobbDouglasModel.mk A alpha beta).production K L = A * K ^ alpha * L ^ beta :=
  rfl

/-- Witness for C1 at the spec's example: `production(K=100, L=50, A=1,
alpha=0.3, beta=0.7) = 100^0.3 * 50^0.7`. -/
theorem production_formula_witness :
    0 < (100 : ℝ) ∧ 0 < (50 : ℝ) ∧ 0 < (1 : ℝ) ∧
    (CobbDouglasModel.mk 1 0.3 0.7).production 100 50 =
      1 * (100 : ℝ) ^ (0.3 : ℝ) * (50 : ℝ) ^ (0.7 : ℝ) :=
  ⟨by norm_num, by norm_num, by norm_num,
    production_formula 1 0.3 0.7 100 50 (by norm_num) (by norm_num) (by norm_num)⟩

/-- C8: `revenue` is exactly `price` times `demand_quantity` at the same
arguments, for all inputs. -/
theorem revenue_eq_price_mul_demand (price elasticity base_price base_quantity : ℝ) :
    DemandModel.revenue price elasticity base_price base_quantity =
      price * DemandModel.demand_quantity price elasticity base_price base_quantity :=
  rfl

/-- C6: when the price equals the reference price, the quantity demanded
equals the reference quantity, for any elasticity. -/
theorem demand_at_base_price (base_price base_quantity e : ℝ)
    (hp : 0 < base_price) (hq : 0 < base_quantity) :
    DemandModel.demand_quantity base_price e base_price base_quantity =
      base_quantity := by
  unfold DemandModel.demand_quantity
  rw [div_self hp.ne', Real.one_rpow, mul_one]

/-- Witness for C6 at `base_price = 100`, `base_quantity = 1000`,
`e = -1.5`. -/
theorem demand_at_base_price_witness :
    0 < (100 : ℝ) ∧ 0 < (1000 : ℝ) ∧
    DemandModel.demand_quantity 100 (-1.5) 100 1000 = 1000 :=
  ⟨by norm_num, by norm_num,
    demand_at_base_price 100 1000 (-1.5) (by norm_num) (by norm_num)⟩

/-- C7: with negative elasticity and `price < base_price`, the quantity
demanded strictly exceeds the reference quantity. -/
theorem demand_above_base_of_price_below (price e base_price base_quantity : ℝ)
    (he : e < 0) (hp : 0 < price) (hlt : price < base_price)
    (hq : 0 < base_quantity) :
    base_quantity <
      DemandModel.demand_quantity price e base_price base_quantity := by
  unfold DemandModel.demand_quantity
  have hbp : 0 < base_price := hp.trans hlt
  have hx : 0 < price / base_price := div_pos hp hbp
  have hx1 : price / base_price < 1 := (div_lt_one hbp).mpr hlt
  have h1 : 1 < (price / base_price) ^ e :=
    (Real.one_lt_rpow_iff_of_pos hx).mpr (Or.inr ⟨hx1, he⟩)
  calc base_quantity = base_quantity * 1 := (mul_one _).symm
    _ < base_quantity * (price / base_price) ^ e := by
        exact mul_lt_mul_of_pos_left h1 hq

/-- Witness for C7 at `price = 50`, `e = -2`, `base_price = 100`,
`base_quantity = 1000`. -/
theorem demand_above_base_of_price_below_witness :
    (-2 : ℝ) < 0 ∧ 0 < (50 : ℝ) ∧ (50 : ℝ) < 100 ∧ 0 < (1000 : ℝ) ∧
    (1000 : ℝ) < DemandModel.demand_quantity 50 (-2) 100 1000 :=
  ⟨by norm_num, by norm_num, by norm_num, by norm_num,
    demand_above_base_of_price_below 50 (-2) 100 1000 (by norm_num) (by norm_num)
      (by norm_num) (by norm_num)⟩

/-- C3 counterexample: at elasticity `-1` (which is `< 0`) `optimal_price`
does not return a numeric result mapping — the division by
`1 + 1/(-1) = 0` raises, modelled by `none`. -/
theorem optimal_price_neg_counterexample :
    (-1 : ℝ) < 0 ∧ DemandModel.optimal_price (-1) 10 = none := by
  constructor
  · norm_num
  · norm_num [DemandModel.optimal_price]

/-- C3 amended: an error result is returned iff elasticity is nonnegative;
for negative elasticity other than `-1` and nonzero marginal cost a numeric
result is returned; in particular an error result at elasticity `0` and `2`
and a numeric result at `-2`. -/
theorem optimal_price_error_iff :
    (∀ e mc : ℝ,
      (∃ msg, DemandModel.optimal_price e mc =
        some (.errorResult msg)) ↔ 0 ≤ e)
    ∧ (∀ e mc : ℝ, e < 0 → e ≠ -1 → mc ≠ 0 →
        ∃ p r, DemandModel.optimal_price e mc = some (.priceResult p r))
    ∧ DemandModel.optimal_price 0 10 =
        some (.errorResult DemandModel.elasticity_error_msg)
    ∧ DemandModel.optimal_price 2 10 =
        some (.errorResult DemandModel.elasticity_error_msg)
    ∧ (∃ p r, DemandModel.optimal_price (-2) 10 = some (.priceResult p r)) := by
  have hne : ∀ e : ℝ, e < 0 → e ≠ -1 → 1 + 1 / e ≠ 0 := by
    intro e he h1 hcon
    apply h1
    have he0 : e ≠ 0 := ne_of_lt he
    field_simp at hcon
    linarith
  refine ⟨?_, ?_, ?_, ?_, ?_⟩
  · intro e mc
    constructor
    · rintro ⟨msg, hmsg⟩
      by_contra hlt
      push_neg at hlt
      simp only [DemandModel.optimal_price, not_le.mpr hlt, if_false] at hmsg
      split_ifs at hmsg with h2 h3 <;> simp at hmsg
    · intro he
      exact ⟨DemandModel.elasticity_error_msg, by
        simp [DemandModel.optimal_price, he]⟩
  · intro e mc he hne1 hmc
    have h1 : 1 + e⁻¹ ≠ 0 := by
      have := hne e he hne1
      rwa [one_div] at this
    refine ⟨roundTo 2 (mc / (1 + 1 / e)),
      roundTo 2 ((mc / (1 + 1 / e) - mc) / mc * 100), ?_⟩
    simp [DemandModel.optimal_price, not_le.mpr he, h1, hmc]
  · simp [DemandModel.optimal_price]
  · norm_num [DemandModel.optimal_price]
  · refine ⟨roundTo 2 ((10 : ℝ) / (1 + 1 / (-2))),
      roundTo 2 (((10 : ℝ) / (1 + 1 / (-2)) - 10) / 10 * 100), ?_⟩
    norm_num [DemandModel.optimal_price]

/-- Witness for C3 amended: a numeric (non-`none`, non-error) result at
elasticity `-2`, marginal cost `10`. -/
theorem optimal_price_error_iff_witness :
    (-2 : ℝ) < 0 ∧ (-2 : ℝ) ≠ -1 ∧ (10 : ℝ) ≠ 0 ∧
    DemandModel.optimal_price (-2) 10 ≠ none := by
  refine ⟨by norm_num, by norm_num, by norm_num, ?_⟩
  obtain ⟨p, r, hpr⟩ :=
    optimal_price_error_iff.2.1 (-2) 10 (by norm_num) (by norm_num) (by norm_num)
  rw [hpr]
  simp

/-- C4 counterexample: two inputs with elasticity `< 0` at which
`optimal_price` returns no values at all: at elasticity `-1` the divisor
`1 + 1/elasticity` is zero, and at marginal cost `0` the markup division by
`marginal_cost` is by zero; both raise, modelled by `none`. -/
theorem optimal_price_formula_counterexample :
    ((-1 : ℝ) < 0 ∧ DemandModel.optimal_price (-1) 5 = none)
    ∧ ((-2 : ℝ) < 0 ∧ DemandModel.optimal_price (-2) 0 = none) := by
  refine ⟨⟨by norm_num, ?_⟩, ⟨by norm_num, ?_⟩⟩
  · norm_num [DemandModel.optimal_price]
  · norm_num [DemandModel.optimal_price]

/-- C4 amended: for elasticity `< 0` other than `-1` and nonzero marginal
cost, `optimal_price` returns exactly `marginal_cost / (1 + 1/elasticity)`
rounded to 2 decimals and the markup percentage rounded to 2 decimals; in
particular at elasticity `-2`, marginal cost `10` it returns optimal price
`20` and markup percentage `100`. -/
theorem optimal_price_formula :
    (∀ e mc : ℝ, e < 0 → e ≠ -1 → mc ≠ 0 →
      DemandModel.optimal_price e mc =
        some (.priceResult (roundTo 2 (mc / (1 + 1 / e)))
          (roundTo 2 ((mc / (1 + 1 / e) - mc) / mc * 100))))
    ∧ DemandModel.optimal_price (-2) 10 = some (.priceResult 20 100) := by
  have hmain : ∀ e mc : ℝ, e < 0 → e ≠ -1 → mc ≠ 0 →
      DemandModel.optimal_price e mc =
        some (.priceResult (roundTo 2 (mc / (1 + 1 / e)))
          (roundTo 2 ((mc / (1 + 1 / e) - mc) / mc * 100))) := by
    intro e mc he hne1 hmc
    have h1 : 1 + e⁻¹ ≠ 0 := by
      intro hcon
      apply hne1
      have he0 : e ≠ 0 := ne_of_lt he
      field_simp at hcon
      linarith
    simp [DemandModel.optimal_price, not_le.mpr he, h1, hmc]
  refine ⟨hmain, ?_⟩
  rw [hmain (-2) 10 (by norm_num) (by norm_num) (by norm_num)]
  have h20 : (10 : ℝ) / (1 + 1 / (-2)) = ((20 : ℤ) : ℝ) := by norm_num
  have h100 : ((10 : ℝ) / (1 + 1 / (-2)) - 10) / 10 * 100 = ((100 : ℤ) : ℝ) := by
    norm_num
  rw [h100, h20, roundTo_intCast, roundTo_intCast]
  norm_num

/-- Witness for C4 amended at elasticity `-2`, marginal cost `10`. -/
theorem optimal_price_formula_witness :
    (-2 : ℝ) < 0 ∧ (-2 : ℝ) ≠ -1 ∧ (10 : ℝ) ≠ 0 ∧
    DemandModel.optimal_price (-2) 10 =
      some (.priceResult (roundTo 2 ((10 : ℝ) / (1 + 1 / (-2))))
        (roundTo 2 (((10 : ℝ) / (1 + 1 / (-2)) - 10) / 10 * 100))) :=
  ⟨by norm_num, by norm_num, by norm_num,
    optimal_price_formula.1 (-2) 10 (by norm_num) (by norm_num) (by norm_num)⟩

/-- C5 counterexample: at `A = 1`, `alpha = 0.3`, `beta = 0.7` (so
`alpha + beta = 1`) and `K = L = 1`, the weighted sum
`alpha*MPK*K + beta*MPL*L` is `0.3^2 + 0.7^2 = 0.58` while production is `1`,
so the claimed identity fails. -/
theorem euler_weighted_counterexample :
    (0.3 : ℝ) + 0.7 = 1 ∧
    0.3 * (CobbDouglasModel.mk 1 0.3 0.7).marginal_product_capital 1 1 * 1
        + 0.7 * (CobbDouglasModel.mk 1 0.3 0.7).marginal_product_labor 1 1 * 1
      ≠ (CobbDouglasModel.mk 1 0.3 0.7).production 1 1 := by
  constructor
  · norm_num
  · simp only [CobbDouglasModel.marginal_product_capital,
      CobbDouglasModel.marginal_product_labor, CobbDouglasModel.production,
      Real.one_rpow]
    norm_num

/-- C5 amended (Euler's theorem for constant returns to scale): for positive
`K`, `L` and `alpha + beta = 1`, the unweighted sum `MPK*K + MPL*L` equals
production. -/
theorem euler_identity (A alpha beta K L : ℝ) (hK : 0 < K) (hL : 0 < L)
    (hab : alpha + beta = 1) :
    (CobbDouglasModel.mk A alpha beta).marginal_product_capital K L * K
        + (CobbDouglasModel.mk A alpha beta).marginal_product_labor K L * L
      = (CobbDouglasModel.mk A alpha beta).production K L := by
  simp only [CobbDouglasModel.marginal_product_capital,
    CobbDouglasModel.marginal_product_labor, CobbDouglasModel.production]
  rw [Real.rpow_sub_one hK.ne', Real.rpow_sub_one hL.ne']
  field_simp
  linear_combination A * K ^ alpha * L ^ beta * hab

/-- Witness for C5 amended at `A = 1`, `alpha = 0.3`, `beta = 0.7`,
`K = 100`, `L = 50`. -/
theorem euler_identity_witness :
    0 < (100 : ℝ) ∧ 0 < (50 : ℝ) ∧ (0.3 : ℝ) + 0.7 = 1 ∧
    (CobbDouglasModel.mk 1 0.3 0.7).marginal_product_capital 100 50 * 100
        + (CobbDouglasModel.mk 1 0.3 0.7).marginal_product_labor 100 50 * 50
      = (CobbDouglasModel.mk 1 0.3 0.7).production 100 50 :=
  ⟨by norm_num, by norm_num, by norm_num,
    euler_identity 1 0.3 0.7 100 50 (by norm_num) (by norm_num) (by norm_num)⟩

/-- C9: for a valid production request (positive capital and labor), the
`/production` response has exactly the fields `output`,
`marginal_product_capital`, `marginal_product_labor`, `returns_to_scale`,
with `returns_to_scale = alpha + beta`, output rounded to 2 decimals and the
marginal products rounded to 4. -/
theorem calculate_production_fields (capital labor tfp alpha beta : ℝ)
    (hc : 0 < capital) (hl : 0 < labor) :
    calculate_production capital labor tfp alpha beta =
      { output :=
          roundTo 2 ((CobbDouglasModel.mk tfp alpha beta).production capital labor)
        marginal_product_capital :=
          roundTo 4
            ((CobbDouglasModel.mk tfp alpha beta).marginal_product_capital capital labor)
        marginal_product_labor :=
          roundTo 4
            ((CobbDouglasModel.mk tfp alpha beta).marginal_product_labor capital labor)
        returns_to_scale := alpha + beta } :=
  rfl

/-- Witness for C9 at capital `100`, labor `50` and the default parameters
`tfp = 1`, `alpha = 0.3`, `beta = 0.7`. -/
theorem calculate_production_fields_witness :
    0 < (100 : ℝ) ∧ 0 < (50 : ℝ) ∧
    calculate_production 100 50 1 0.3 0.7 =
      { output :=
          roundTo 2 ((CobbDouglasModel.mk 1 0.3 0.7).production 100 50)
        marginal_product_capital :=
          roundTo 4 ((CobbDouglasModel.mk 1 0.3 0.7).marginal_product_capital 100 50)
        marginal_product_labor :=
          roundTo 4 ((CobbDouglasModel.mk 1 0.3 0.7).marginal_product_labor 100 50)
        returns_to_scale := (0.3 : ℝ) + 0.7 } :=
  ⟨by norm_num, by norm_num,
    calculate_production_fields 100 50 1 0.3 0.7 (by norm_num) (by norm_num)⟩

/-- C10: at elasticity `-1` the guard `elasticity >= 0` is not taken, the
divisor `1 + 1/elasticity` is exactly zero, and the division raises
(`none`): no mapping is returned for any marginal cost; and for negative
elasticity the explicit-error branch is never taken. -/
theorem optimal_price_neg_one_raises :
    ∀ mc : ℝ, ¬ (0 ≤ (-1 : ℝ)) ∧ 1 + 1 / (-1 : ℝ) = 0 ∧
      DemandModel.optimal_price (-1) mc = none ∧
      ∀ e : ℝ, e < 0 → ∀ msg,
        DemandModel.optimal_price e mc ≠ some (.errorResult msg) := by
  intro mc
  refine ⟨by norm_num, by norm_num, by norm_num [DemandModel.optimal_price], ?_⟩
  intro e he msg
  simp only [DemandModel.optimal_price, not_le.mpr he, if_false]
  split_ifs with h2 h3 <;> simp

/-- Witness for C10 at marginal cost `10` and, for the error-branch clause,
elasticity `-2`. -/
theorem optimal_price_neg_one_raises_witness :
    (DemandModel.optimal_price (-1) 10 = none) ∧ (-2 : ℝ) < 0 ∧
      DemandModel.optimal_price (-2) 10 ≠
        some (.errorResult DemandModel.elasticity_error_msg) :=
  ⟨(optimal_price_neg_one_raises 10).2.2.1, by norm_num,
    (optimal_price_neg_one_raises 10).2.2.2 (-2) (by norm_num)
      DemandModel.elasticity_error_msg⟩

/-- Weighted two-variable AM-GM in exponent form: on the segment
`x + y = 1`, `x ≥ 0`, `y ≥ 0`, the product `x^a * y^b` (positive exponents
`a`, `b`) is maximized at the shares `x = a/(a+b)`, `y = b/(a+b)`. -/
theorem rpow_prod_le_shares {a b x y : ℝ} (ha : 0 < a) (hb : 0 < b)
    (hx : 0 ≤ x) (hy : 0 ≤ y) (hxy : x + y = 1) :
    x ^ a * y ^ b ≤ (a / (a + b)) ^ a * (b / (a + b)) ^ b := by
  set s := a + b with hs_def
  have hs : 0 < s := by positivity
  set w₁ := a / s with hw1_def
  set w₂ := b / s with hw2_def
  have hw₁ : 0 < w₁ := div_pos ha hs
  have hw₂ : 0 < w₂ := div_pos hb hs
  have hw : w₁ + w₂ = 1 := by
    rw [hw1_def, hw2_def, div_add_div_same, div_self hs.ne']
  have step1 : x ^ w₁ * y ^ w₂ ≤ w₁ ^ w₁ * w₂ ^ w₂ := by
    have hgm := Real.geom_mean_le_arith_mean2_weighted hw₁.le hw₂.le
      (div_nonneg hx hw₁.le) (div_nonneg hy hw₂.le) hw
    have e1 : w₁ * (x / w₁) = x := by field_simp
    have e2 : w₂ * (y / w₂) = y := by field_simp
    rw [e1, e2, hxy] at hgm
    have hdiv : (x / w₁) ^ w₁ * (y / w₂) ^ w₂ =
        (x ^ w₁ * y ^ w₂) / (w₁ ^ w₁ * w₂ ^ w₂) := by
      rw [Real.div_rpow hx hw₁.le, Real.div_rpow hy hw₂.le]
      ring
    rw [hdiv, div_le_one (by positivity)] at hgm
    exact hgm
  have step2 : (x ^ w₁ * y ^ w₂) ^ s ≤ (w₁ ^ w₁ * w₂ ^ w₂) ^ s :=
    Real.rpow_le_rpow (by positivity) step1 hs.le
  have hw1s : w₁ * s = a := by rw [hw1_def]; exact div_mul_cancel₀ a hs.ne'
  have hw2s : w₂ * s = b := by rw [hw2_def]; exact div_mul_cancel₀ b hs.ne'
  have hxs : (x ^ w₁ * y ^ w₂) ^ s = x ^ a * y ^ b := by
    rw [Real.mul_rpow (by positivity) (by positivity), ← Real.rpow_mul hx,
      ← Real.rpow_mul hy, hw1s, hw2s]
  have hws : (w₁ ^ w₁ * w₂ ^ w₂) ^ s = w₁ ^ a * w₂ ^ b := by
    rw [Real.mul_rpow (by positivity) (by positivity), ← Real.rpow_mul hw₁.le,
      ← Real.rpow_mul hw₂.le, hw1s, hw2s]
  calc x ^ a * y ^ b = (x ^ w₁ * y ^ w₂) ^ s := hxs.symm
    _ ≤ (w₁ ^ w₁ * w₂ ^ w₂) ^ s := step2
    _ = w₁ ^ a * w₂ ^ b := hws

/-- Production is maximized on the budget line at the closed-form share
allocation `K = alpha/(alpha+beta)*budget/pK`,
`L = beta/(alpha+beta)*budget/pL`. -/
theorem production_le_closed_form (m : CobbDouglasModel)
    (hA : 0 ≤ m.A) (ha : 0 < m.alpha) (hb : 0 < m.beta)
    {budget pK pL : ℝ} (hB : 0 < budget) (hpK : 0 < pK) (hpL : 0 < pL)
    {K L : ℝ} (hK : 0 ≤ K) (hL : 0 ≤ L) (hfeas : pK * K + pL * L = budget) :
    m.production K L ≤
      m.production (m.alpha / (m.alpha + m.beta) * budget / pK)
        (m.beta / (m.alpha + m.beta) * budget / pL) := by
  set x := pK * K / budget with hx_def
  set y := pL * L / budget with hy_def
  have hx : 0 ≤ x := by positivity
  have hy : 0 ≤ y := by positivity
  have hxy : x + y = 1 := by
    rw [hx_def, hy_def, div_add_div_same, hfeas, div_self hB.ne']
  have hKx : x * (budget / pK) = K := by
    rw [hx_def]
    field_simp
  have hLy : y * (budget / pL) = L := by
    rw [hy_def]
    field_simp
  have hBpK : (0:ℝ) ≤ budget / pK := le_of_lt (div_pos hB hpK)
  have hBpL : (0:ℝ) ≤ budget / pL := le_of_lt (div_pos hB hpL)
  have hshares := rpow_prod_le_shares ha hb hx hy hxy
  have hC : 0 ≤ m.A * (budget / pK) ^ m.alpha * (budget / pL) ^ m.beta := by
    positivity
  calc m.production K L
      = m.A * (budget / pK) ^ m.alpha * (budget / pL) ^ m.beta
          * (x ^ m.alpha * y ^ m.beta) := by
        rw [CobbDouglasModel.production, ← hKx, ← hLy,
          Real.mul_rpow hx hBpK, Real.mul_rpow hy hBpL]
        ring
    _ ≤ m.A * (budget / pK) ^ m.alpha * (budget / pL) ^ m.beta
          * ((m.alpha / (m.alpha + m.beta)) ^ m.alpha
            * (m.beta / (m.alpha + m.beta)) ^ m.beta) :=
        mul_le_mul_of_nonneg_left hshares hC
    _ = m.production (m.alpha / (m.alpha + m.beta) * budget / pK)
          (m.beta / (m.alpha + m.beta) * budget / pL) := by
        rw [CobbDouglasModel.production,
          show m.alpha / (m.alpha + m.beta) * budget / pK
            = m.alpha / (m.alpha + m.beta) * (budget / pK) by ring,
          show m.beta / (m.alpha + m.beta) * budget / pL
            = m.beta / (m.alpha + m.beta) * (budget / pL) by ring,
          Real.mul_rpow (by positivity) hBpK,
          Real.mul_rpow (by positivity) hBpL]
        ring

/-- C2: the allocation the solver converges to satisfies the budget
constraint `pK*K + pL*L = budget` exactly, equals the closed-form shares
`K = alpha/(alpha+beta)*budget/pK`, `L = beta/(alpha+beta)*budget/pL`, and
maximizes production over every feasible allocation (which is what
characterizes it as the solver's limit). -/
theorem optimal_allocation_budget_and_shares
    (A alpha beta budget pK pL : ℝ) (hA : 0 ≤ A)
    (ha : 0 < alpha) (ha1 : alpha < 1) (hb : 0 < beta) (hb1 : beta < 1)
    (hB : 0 < budget) (hpK : 0 < pK) (hpL : 0 < pL) :
    pK * ((CobbDouglasModel.mk A alpha beta).converged_allocation budget pK pL).1
        + pL * ((CobbDouglasModel.mk A alpha beta).converged_allocation budget pK pL).2
      = budget
    ∧ ((CobbDouglasModel.mk A alpha beta).converged_allocation budget pK pL).1
        = alpha / (alpha + beta) * budget / pK
    ∧ ((CobbDouglasModel.mk A alpha beta).converged_allocation budget pK pL).2
        = beta / (alpha + beta) * budget / pL
    ∧ ∀ K L : ℝ, 0 ≤ K → 0 ≤ L → pK * K + pL * L = budget →
        (CobbDouglasModel.mk A alpha beta).production K L ≤
          (CobbDouglasModel.mk A alpha beta).production
            (((CobbDouglasModel.mk A alpha beta).converged_allocation budget pK pL).1)
            (((CobbDouglasModel.mk A alpha beta).converged_allocation budget pK pL).2) := by
  have hab : (0:ℝ) < alpha + beta := by linarith
  refine ⟨?_, rfl, rfl, ?_⟩
  · show pK * (alpha / (alpha + beta) * budget / pK)
        + pL * (beta / (alpha + beta) * budget / pL) = budget
    field_simp
    ring
  · intro K L hK hL hfeas
    exact production_le_closed_form (CobbDouglasModel.mk A alpha beta)
      hA ha hb hB hpK hpL hK hL hfeas

/-- Witness for C2 at `A = 1`, `alpha = 0.3`, `beta = 0.7`, `budget = 100`,
`pK = 2`, `pL = 5`. -/
theorem optimal_allocation_budget_and_shares_witness :
    (0 ≤ (1:ℝ) ∧ 0 < (0.3:ℝ) ∧ (0.3:ℝ) < 1 ∧ 0 < (0.7:ℝ) ∧ (0.7:ℝ) < 1
      ∧ 0 < (100:ℝ) ∧ 0 < (2:ℝ) ∧ 0 < (5:ℝ))
    ∧ (2 * ((CobbDouglasModel.mk 1 0.3 0.7).converged_allocation 100 2 5).1
          + 5 * ((CobbDouglasModel.mk 1 0.3 0.7).converged_allocation 100 2 5).2
        = 100
      ∧ ((CobbDouglasModel.mk 1 0.3 0.7).converged_allocation 100 2 5).1
          = 0.3 / (0.3 + 0.7) * 100 / 2
      ∧ ((CobbDouglasModel.mk 1 0.3 0.7).converged_allocation 100 2 5).2
          = 0.7 / (0.3 + 0.7) * 100 / 5
      ∧ (CobbDouglasModel.mk 1 0.3 0.7).production 10 16 ≤
          (CobbDouglasModel.mk 1 0.3 0.7).production
            (((CobbDouglasModel.mk 1 0.3 0.7).converged_allocation 100 2 5).1)
            (((CobbDouglasModel.mk 1 0.3 0.7).converged_allocation 100 2 5).2)) := by
  have h := optimal_allocation_budget_and_shares 1 0.3 0.7 100 2 5 (by norm_num)
    (by norm_num) (by norm_num) (by norm_num) (by norm_num) (by norm_num)
    (by norm_num) (by norm_num)
  exact ⟨⟨by norm_num, by norm_num, by norm_num, by norm_num, by norm_num,
      by norm_num, by norm_num, by norm_num⟩,
    h.1, h.2.1, h.2.2.1,
    h.2.2.2 10 16 (by norm_num) (by norm_num) (by norm_num)⟩
